import Mathlib

/-!
Shallow embedding of src/eval.c from the bfs repository: the expression
evaluation engine of a breadth-first `find`-style utility.  Pure structure
(the expression tree, the per-visit evaluation state, the bftw() callback
logic, the descriptor-budget inference) is translated directly from the C
source; OS calls (faccessat, fstatat, unlinkat, fnmatch, getrlimit) are
modelled by an oracle fixed for the duration of one visit, and observable
side effects (stdout writes, diagnostics, syscall invocations, writes to
the traversal directive) are recorded in ghost trace fields.
-/

namespace Bfs

/-- Traversal directive returned to the bftw() engine (bftw_action). -/
inductive bftw_action where
  | BFTW_CONTINUE
  | BFTW_SKIP_SUBTREE
  | BFTW_STOP
deriving DecidableEq, Repr

/-- Visit phase of a traversal event (bftw_visit). -/
inductive bftw_visit where
  | BFTW_PRE
  | BFTW_POST
deriving DecidableEq, Repr

/-- Modelled from the spec: the file-type tags of the traversal engine live in
bftw.h, which is not under src/; only their distinctness is used here.  The
directory tag. -/
def BFTW_DIR : Int := 3

/-- Modelled from the spec: the sentinel "error" file-type tag from bftw.h
(not under src/); only its distinctness from the other tags is used. -/
def BFTW_ERROR : Int := 10

/-- Modelled from the spec: the traversal-flag bit from bftw.h (not under
src/) that enables depth-first visiting mode; only its role as a single
flag bit is used. -/
def BFTW_DEPTH : Nat := 2

/-- Modelled from the spec: the libc flag passed to unlinkat for
directory-aware removal (fcntl.h, a header that is not part of this repo);
only its distinctness from 0 matters. -/
def AT_REMOVEDIR : Int := 512

/-- Contents of a struct stat buffer.  The evaluator never inspects its
fields; it only caches it and hands it to the pretty printer. -/
structure StatBuf where
  data : Nat
deriving DecidableEq, Repr

/-- Immutable fields of one traversal event (struct BFTW), together with the
engine-supplied stat buffer pointer (statbuf0) that seeds the per-visit
cache.  The at_fd and at_path fields of the C struct are implicit in the
OS oracle, which is already specialised to this entry. -/
structure BFTW where
  path : String
  nameoff : Nat
  depth : Nat
  typeflag : Int
  visit : bftw_visit
  error : Int
  statbuf0 : Option StatBuf
deriving DecidableEq, Repr

/-- Outcomes of the OS calls that evaluating one entry may make, fixed for
the duration of one visit.  faccessat and unlinkat are keyed by the only
argument that varies (the mode bits, resp. the removal flag); fstatat and
the errno of a failed unlinkat are single values for this entry. -/
structure OS where
  faccessat : Int → Bool
  fstatat : Option StatBuf
  unlinkat : Int → Bool
  unlinkat_errno : Int
  fnmatch : String → String → Bool

/-- One diagnostic written to standard error: either a print_error call from
the diagnostics collaborator (path and OS error code) or a libc perror. -/
inductive Diag where
  | print_error (path : String) (errno : Int)
  | perror (msg : String)
deriving DecidableEq, Repr

/-- One item written to standard output: a pretty_print line (with the
colorization choice) or the raw null-terminated path of -print0. -/
inductive OutItem where
  | pretty (colors : Bool) (path : String)
  | raw (path : String)
deriving DecidableEq, Repr

/-- Ghost trace of the observable effects of one visit, most recent first:
stdout items, stderr diagnostics, the number of fstatat syscalls, the
unlinkat syscalls performed (by removal flag), and every write made to the
context's action field by a leaf evaluator. -/
structure trace where
  out : List OutItem
  errs : List Diag
  fstatat_calls : Nat
  unlinkat_calls : List Int
  action_writes : List bftw_action
deriving DecidableEq, Repr

/-- The empty trace, at the start of a visit. -/
def trace.empty : trace := ⟨[], [], 0, [], []⟩

/-- Per-visit mutable state (eval_state): the BFTW statbuf pointer (engine
supplied or filled by fill_statbuf), the accumulated traversal directive,
and the ghost trace. -/
structure eval_state where
  statbuf : Option StatBuf
  action : bftw_action
  tr : trace
deriving DecidableEq, Repr

/-- Read-only data every leaf evaluator can reach from eval_state: the
current traversal event, the colors field of the command line (the only
configuration field the leaves use), and the OS oracle. -/
structure Env where
  ftw : BFTW
  colors : Bool
  os : OS

/-- Tags selecting which eval_* function an expression node's eval function
pointer designates. -/
inductive ExprKind where
  | etrue
  | efalse
  | eaccess
  | edelete
  | eprune
  | ehidden
  | enohidden
  | ename
  | epath
  | eprint
  | eprint0
  | equit
  | etype
  | enot
  | eand
  | eor
  | ecomma
deriving DecidableEq, Repr

/-- Expression tree node (struct expression): an eval function pointer
(here its kind), left and right child pointers (null models a NULL
pointer), an integer payload idata and a string payload sdata. -/
inductive Expression where
  | null : Expression
  | mk (kind : ExprKind) (lhs : Expression) (rhs : Expression)
      (idata : Int) (sdata : String) : Expression
deriving DecidableEq, Repr

/-- Run-wide configuration (cmdline): colors (modelled by whether the color
table pointer is non-null), depth bounds, traversal flags, the compiled
expression tree and the root list. -/
structure cmdline where
  colors : Bool
  mindepth : Nat
  maxdepth : Nat
  flags : Nat
  expr : Expression
  roots : List String

/-- Embeds fill_statbuf: if the event already carries a stat buffer, do
nothing; otherwise perform one fstatat syscall, caching the result on
success and reporting a perror diagnostic on failure (the cache is left
absent on failure, so a later call runs the syscall again). -/
def fill_statbuf (env : Env) (s : eval_state) : eval_state :=
  match s.statbuf with
  | some _ => s
  | none =>
    match env.os.fstatat with
    | some sb =>
      { s with statbuf := some sb,
               tr := { s.tr with fstatat_calls := s.tr.fstatat_calls + 1 } }
    | none =>
      { s with tr :=
          { s.tr with
            fstatat_calls := s.tr.fstatat_calls + 1,
            errs := Diag.perror "fstatat()" :: s.tr.errs } }

/-- Embeds eval_true: the -true test. -/
def eval_true (_ : Env) (s : eval_state) : Bool × eval_state :=
  (true, s)

/-- Embeds eval_false: the -false test. -/
def eval_false (_ : Env) (s : eval_state) : Bool × eval_state :=
  (false, s)

/-- Embeds eval_access: faccessat on this entry with the node's idata mode
bits, without following symlinks.  idata is read from the argument node of
the eval call. -/
def eval_access (env : Env) (idata : Int) (s : eval_state) : Bool × eval_state :=
  (env.os.faccessat idata, s)

/-- Embeds eval_delete: unlinkat with AT_REMOVEDIR when the entry's type is
directory; on failure, print_error with the entry's path and errno and set
the directive to BFTW_STOP; the result is true in every case. -/
def eval_delete (env : Env) (s : eval_state) : Bool × eval_state :=
  let flag : Int := if env.ftw.typeflag = BFTW_DIR then AT_REMOVEDIR else 0
  let s1 : eval_state :=
    { s with tr := { s.tr with unlinkat_calls := flag :: s.tr.unlinkat_calls } }
  if env.os.unlinkat flag then
    (true, s1)
  else
    (true, { s1 with
      action := bftw_action.BFTW_STOP,
      tr := { s1.tr with
        errs := Diag.print_error env.ftw.path env.os.unlinkat_errno :: s1.tr.errs,
        action_writes := bftw_action.BFTW_STOP :: s1.tr.action_writes } })

/-- Embeds eval_prune: set the directive to BFTW_SKIP_SUBTREE and return
true. -/
def eval_prune (_ : Env) (s : eval_state) : Bool × eval_state :=
  (true, { s with
    action := bftw_action.BFTW_SKIP_SUBTREE,
    tr := { s.tr with
      action_writes := bftw_action.BFTW_SKIP_SUBTREE :: s.tr.action_writes } })

/-- Embeds eval_hidden: the basename offset is positive and the path
character at that offset is a dot. -/
def eval_hidden (env : Env) (s : eval_state) : Bool × eval_state :=
  (decide (0 < env.ftw.nameoff) &&
     decide (env.ftw.path.data.get? env.ftw.nameoff = some '.'), s)

/-- Embeds eval_nohidden: on a hidden entry, apply eval_prune's effect and
return false; otherwise return true. -/
def eval_nohidden (env : Env) (s : eval_state) : Bool × eval_state :=
  if (eval_hidden env s).1 then
    (false, (eval_prune env (eval_hidden env s).2).2)
  else
    (true, s)

/-- Embeds eval_name: fnmatch of the node's sdata pattern against the
basename (the path from the name offset on). -/
def eval_name (env : Env) (sdata : String) (s : eval_state) : Bool × eval_state :=
  (env.os.fnmatch sdata (env.ftw.path.drop env.ftw.nameoff), s)

/-- Embeds eval_path: fnmatch of the node's sdata pattern against the full
path. -/
def eval_path (env : Env) (sdata : String) (s : eval_state) : Bool × eval_state :=
  (env.os.fnmatch sdata env.ftw.path, s)

/-- Embeds eval_print: when a color table is configured, fill the stat
buffer first, then pretty_print the entry; always true. -/
def eval_print (env : Env) (s : eval_state) : Bool × eval_state :=
  let s1 := if env.colors then fill_statbuf env s else s
  (true, { s1 with
    tr := { s1.tr with out := OutItem.pretty env.colors env.ftw.path :: s1.tr.out } })

/-- Embeds eval_print0: write the raw path plus a null terminator; always
true. -/
def eval_print0 (env : Env) (s : eval_state) : Bool × eval_state :=
  (true, { s with tr := { s.tr with out := OutItem.raw env.ftw.path :: s.tr.out } })

/-- Embeds eval_quit: set the directive to BFTW_STOP and return true. -/
def eval_quit (_ : Env) (s : eval_state) : Bool × eval_state :=
  (true, { s with
    action := bftw_action.BFTW_STOP,
    tr := { s.tr with
      action_writes := bftw_action.BFTW_STOP :: s.tr.action_writes } })

/-- Embeds eval_type: the entry's typeflag equals the node's idata (read
from the argument node of the eval call). -/
def eval_type (env : Env) (idata : Int) (s : eval_state) : Bool × eval_state :=
  (decide (env.ftw.typeflag = idata), s)

/-- Embeds one call through an expression node's eval function pointer:
callee supplies the function (selected by its kind field), while every
field read inside that function goes through the argument node arg, exactly
as in the C call `callee->eval(arg, state)`.  At every call site in the
source callee and arg coincide, except inside eval_not, which calls
`expr->rhs->eval(expr, state)` — the child's function applied to the NOT
node itself.  Fuel bounds the recursion depth (the C recursion can diverge
through that call); dereferencing a null child also yields none. -/
def expr_eval : Nat → Env → Expression → Expression → eval_state →
    Option (Bool × eval_state)
  | 0, _, _, _, _ => none
  | _ + 1, _, Expression.null, _, _ => none
  | fuel + 1, env, Expression.mk k _ _ _ _, arg, s =>
    match k, arg with
    | ExprKind.etrue, _ => some (eval_true env s)
    | ExprKind.efalse, _ => some (eval_false env s)
    | ExprKind.eaccess, Expression.mk _ _ _ idata _ => some (eval_access env idata s)
    | ExprKind.edelete, _ => some (eval_delete env s)
    | ExprKind.eprune, _ => some (eval_prune env s)
    | ExprKind.ehidden, _ => some (eval_hidden env s)
    | ExprKind.enohidden, _ => some (eval_nohidden env s)
    | ExprKind.ename, Expression.mk _ _ _ _ sdata => some (eval_name env sdata s)
    | ExprKind.epath, Expression.mk _ _ _ _ sdata => some (eval_path env sdata s)
    | ExprKind.eprint, _ => some (eval_print env s)
    | ExprKind.eprint0, _ => some (eval_print0 env s)
    | ExprKind.equit, _ => some (eval_quit env s)
    | ExprKind.etype, Expression.mk _ _ _ idata _ => some (eval_type env idata s)
    | ExprKind.enot, Expression.mk _ _ rhs _ _ =>
      match expr_eval fuel env rhs arg s with
      | some (b, s1) => some (!b, s1)
      | none => none
    | ExprKind.eand, Expression.mk _ lhs rhs _ _ =>
      match expr_eval fuel env lhs lhs s with
      | some (b, s1) =>
        if b then expr_eval fuel env rhs rhs s1 else some (false, s1)
      | none => none
    | ExprKind.eor, Expression.mk _ lhs rhs _ _ =>
      match expr_eval fuel env lhs lhs s with
      | some (b, s1) =>
        if b then some (true, s1) else expr_eval fuel env rhs rhs s1
      | none => none
    | ExprKind.ecomma, Expression.mk _ lhs rhs _ _ =>
      match expr_eval fuel env lhs lhs s with
      | some (_, s1) => expr_eval fuel env rhs rhs s1
      | none => none
    | _, Expression.null => none

/-- The expected visit phase computed by cmdline_callback: BFTW_POST exactly
when the BFTW_DEPTH flag is set, the entry is a directory and its depth is
strictly below maxdepth; BFTW_PRE otherwise. -/
def expected_visit (ftwbuf : BFTW) (cl : cmdline) : bftw_visit :=
  if (cl.flags &&& BFTW_DEPTH) ≠ 0 ∧ ftwbuf.typeflag = BFTW_DIR ∧
      ftwbuf.depth < cl.maxdepth then
    bftw_visit.BFTW_POST
  else
    bftw_visit.BFTW_PRE

/-- The directive preset by cmdline_callback before evaluation:
BFTW_SKIP_SUBTREE when depth is at least maxdepth, BFTW_CONTINUE
otherwise. -/
def preset_action (ftwbuf : BFTW) (cl : cmdline) : bftw_action :=
  if cl.maxdepth ≤ ftwbuf.depth then
    bftw_action.BFTW_SKIP_SUBTREE
  else
    bftw_action.BFTW_CONTINUE

/-- The evaluation state cmdline_callback hands to the expression tree: the
engine-supplied stat buffer, the preset directive, and an empty trace. -/
def preset_state (ftwbuf : BFTW) (cl : cmdline) : eval_state :=
  ⟨ftwbuf.statbuf0, preset_action ftwbuf cl, trace.empty⟩

/-- Embeds cmdline_callback: on the error sentinel, report the carried OS
error and return BFTW_SKIP_SUBTREE at once; otherwise build a fresh state
with the preset directive and evaluate the expression tree only when the
actual visit phase equals the expected one and depth lies within
[mindepth, maxdepth]; return the state's final action (paired with the
ghost trace; none models a crash or divergence inside the evaluation). -/
def cmdline_callback (fuel : Nat) (os : OS) (ftwbuf : BFTW) (cl : cmdline) :
    Option (bftw_action × trace) :=
  if ftwbuf.typeflag = BFTW_ERROR then
    some (bftw_action.BFTW_SKIP_SUBTREE,
      { trace.empty with errs := [Diag.print_error ftwbuf.path ftwbuf.error] })
  else if ftwbuf.visit = expected_visit ftwbuf cl ∧
      cl.mindepth ≤ ftwbuf.depth ∧ ftwbuf.depth ≤ cl.maxdepth then
    match expr_eval fuel ⟨ftwbuf, cl.colors, os⟩ cl.expr cl.expr
        (preset_state ftwbuf cl) with
    | some (_, s2) => some (s2.action, s2.tr)
    | none => none
  else
    some (preset_action ftwbuf cl, trace.empty)

/-- Modelled from the spec: RLIM_INFINITY, the rlim_t value reporting an
unlimited resource limit (the all-ones unsigned 64-bit value). -/
def RLIM_INFINITY : Nat := 2 ^ 64 - 1

/-- Conversion of an unsigned 64-bit rlim_t value to the C int variable ret
(32 bits), wrapping as on the two's-complement targets the program is
compiled for. -/
def int32_wrap (v : Nat) : Int :=
  ((v : Int) + 2 ^ 31) % 2 ^ 32 - 2 ^ 31

/-- Embeds infer_nopenfd: the descriptor-count soft limit (none when the
getrlimit call fails), defaulting to 4096 when unavailable or unlimited,
then reserving 3 descriptors for the standard streams when the ceiling
exceeds 3. -/
def infer_nopenfd (rlimit : Option Nat) : Int :=
  let ret : Int := 4096
  let ret : Int :=
    match rlimit with
    | some cur => if cur ≠ RLIM_INFINITY then int32_wrap cur else ret
    | none => ret
  if ret > 3 then ret - 3 else ret

/-- The expression tree contains no -delete and no -quit node. -/
def no_delete_quit : Expression → Bool
  | Expression.null => true
  | Expression.mk k lhs rhs _ _ =>
    !(k = ExprKind.edelete) && !(k = ExprKind.equit) &&
      no_delete_quit lhs && no_delete_quit rhs

/-- Relation between the evaluation state before and after a tree walk in
which every write to the action field was BFTW_SKIP_SUBTREE: the new
writes are all skip-subtree, and the final action is the initial one when
no write happened and skip-subtree otherwise (last writer wins). -/
def writes_ok (s s2 : eval_state) : Prop :=
  ∃ w : List bftw_action,
    s2.tr.action_writes = w ++ s.tr.action_writes ∧
    (∀ x ∈ w, x = bftw_action.BFTW_SKIP_SUBTREE) ∧
    s2.action = if w = [] then s.action else bftw_action.BFTW_SKIP_SUBTREE

/-- Sample stat buffer for concrete evaluations. -/
def stat0 : StatBuf := ⟨0⟩

/-- Sample oracle: every OS call succeeds. -/
def os_ok : OS := ⟨fun _ => true, some stat0, fun _ => true, 0, fun _ _ => true⟩

/-- Sample oracle: fstatat fails, everything else succeeds. -/
def os_nostat : OS := { os_ok with fstatat := none }

/-- Sample oracle: unlinkat fails with errno 2, everything else succeeds. -/
def os_nounlink : OS := { os_ok with unlinkat := fun _ => false, unlinkat_errno := 2 }

/-- Sample traversal event: a regular entry at depth 0, pre-order visit, no
engine-supplied stat buffer. -/
def ftw0 : BFTW := ⟨"f", 0, 0, 0, bftw_visit.BFTW_PRE, 0, none⟩

/-- Sample environment over ftw0 with colors off. -/
def env0 : Env := ⟨ftw0, false, os_ok⟩

/-- Sample environment over an entry whose typeflag is 5. -/
def env_type5 : Env := ⟨{ ftw0 with typeflag := 5 }, false, os_ok⟩

/-- Sample environment with colors on and a failing fstatat. -/
def env_colors_nostat : Env := ⟨ftw0, true, os_nostat⟩

/-- Sample initial evaluation state: no stat buffer, continue, empty
trace. -/
def s0 : eval_state := ⟨none, bftw_action.BFTW_CONTINUE, trace.empty⟩

/-- Sample leaf: -true. -/
def true_leaf : Expression := Expression.mk ExprKind.etrue Expression.null Expression.null 0 ""

/-- Sample leaf: -false. -/
def false_leaf : Expression := Expression.mk ExprKind.efalse Expression.null Expression.null 0 ""

/-- Sample leaf: -type with tag 5. -/
def type_leaf5 : Expression := Expression.mk ExprKind.etype Expression.null Expression.null 5 ""

/-- Sample node: NOT over the -type 5 leaf, with its own idata 0 (a NOT
node's payload is unused by the intended semantics). -/
def not_type5 : Expression := Expression.mk ExprKind.enot Expression.null type_leaf5 0 ""

/-- Sample leaf: -print. -/
def print_leaf : Expression := Expression.mk ExprKind.eprint Expression.null Expression.null 0 ""

/-- Sample node: COMMA sequencing two -print actions. -/
def comma_print_print : Expression := Expression.mk ExprKind.ecomma print_leaf print_leaf 0 ""

/-- Sample leaf: -prune. -/
def prune_leaf : Expression := Expression.mk ExprKind.eprune Expression.null Expression.null 0 ""

/-- Sample command line: no colors, depth bounds [0, 5], no flags, the
-prune expression, one root. -/
def cl_prune : cmdline := ⟨false, 0, 5, 0, prune_leaf, ["root"]⟩

/-- Sample environment over ftw0 with a failing unlinkat. -/
def env_nounlink : Env := ⟨ftw0, false, os_nounlink⟩

/-- Sample traversal event carrying the error sentinel type and OS error
13. -/
def ftw_err : BFTW := { ftw0 with typeflag := BFTW_ERROR, error := 13 }

/-- Sample traversal event: like ftw0 but on the post-order visit. -/
def ftw_post : BFTW := { ftw0 with visit := bftw_visit.BFTW_POST }

/-- Sample traversal event: like ftw0 but at depth 5. -/
def ftw_depth5 : BFTW := { ftw0 with depth := 5 }

/-- Sample command line: like cl_prune but with mindepth 2. -/
def cl_mindepth2 : cmdline := { cl_prune with mindepth := 2 }

/-- C1: the claim states that evaluating a NOT node negates the result of
evaluating its child, for every kind of child including payload-reading
leaves.  The code violates this: eval_not calls the child's eval function
with the NOT node itself as argument, so a -type child reads the NOT
node's idata.  Here the -type 5 leaf alone evaluates to true on an entry
of type 5, yet NOT over that very leaf also evaluates to true (the leaf's
function is applied to the NOT node, whose idata is 0), not to the
negation false; the directive and the rest of the state are untouched. -/
theorem C1_eval_not_code_bug :
    expr_eval 2 env_type5 type_leaf5 type_leaf5 s0 = some (true, s0) ∧
    expr_eval 2 env_type5 not_type5 not_type5 s0 = some (true, s0) ∧
    (expr_eval 2 env_type5 not_type5 not_type5 s0).map (fun p => p.1) ≠
      some (!true) := by
  refine ⟨by decide, by decide, by decide⟩

/-- C8: AND evaluates its left child and short-circuits to false without
touching the right child when the left child yields false, and otherwise
returns exactly the right child's evaluation on the state produced by the
left child; OR evaluates its left child and short-circuits to true when it
yields true, and otherwise returns exactly the right child's evaluation on
the state produced by the left child. -/
theorem C8_and_or_short_circuit (fuel : Nat) (env : Env) (l r : Expression)
    (i : Int) (sd : String) (s s1 : eval_state) :
    (expr_eval fuel env l l s = some (false, s1) →
      expr_eval (fuel + 1) env (Expression.mk ExprKind.eand l r i sd)
        (Expression.mk ExprKind.eand l r i sd) s = some (false, s1)) ∧
    (expr_eval fuel env l l s = some (true, s1) →
      expr_eval (fuel + 1) env (Expression.mk ExprKind.eand l r i sd)
        (Expression.mk ExprKind.eand l r i sd) s = expr_eval fuel env r r s1) ∧
    (expr_eval fuel env l l s = some (true, s1) →
      expr_eval (fuel + 1) env (Expression.mk ExprKind.eor l r i sd)
        (Expression.mk ExprKind.eor l r i sd) s = some (true, s1)) ∧
    (expr_eval fuel env l l s = some (false, s1) →
      expr_eval (fuel + 1) env (Expression.mk ExprKind.eor l r i sd)
        (Expression.mk ExprKind.eor l r i sd) s = expr_eval fuel env r r s1) := by
  refine ⟨fun h => ?_, fun h => ?_, fun h => ?_, fun h => ?_⟩ <;>
    simp [expr_eval, h]

/-- Witness for C8 at concrete inputs: both short-circuit directions of AND
and OR, with a -true and a -false leaf deciding the branch. -/
theorem C8_and_or_short_circuit_witness :
    (expr_eval 2 env0 (Expression.mk ExprKind.eand true_leaf false_leaf 0 "")
        (Expression.mk ExprKind.eand true_leaf false_leaf 0 "") s0 =
      expr_eval 1 env0 false_leaf false_leaf s0) ∧
    (expr_eval 2 env0 (Expression.mk ExprKind.eor true_leaf false_leaf 0 "")
        (Expression.mk ExprKind.eor true_leaf false_leaf 0 "") s0 =
      some (true, s0)) ∧
    (expr_eval 2 env0 (Expression.mk ExprKind.eand false_leaf true_leaf 0 "")
        (Expression.mk ExprKind.eand false_leaf true_leaf 0 "") s0 =
      some (false, s0)) ∧
    (expr_eval 2 env0 (Expression.mk ExprKind.eor false_leaf true_leaf 0 "")
        (Expression.mk ExprKind.eor false_leaf true_leaf 0 "") s0 =
      expr_eval 1 env0 true_leaf true_leaf s0) := by
  have h1 := C8_and_or_short_circuit 1 env0 true_leaf false_leaf 0 "" s0 s0
  have h2 := C8_and_or_short_circuit 1 env0 false_leaf true_leaf 0 "" s0 s0
  exact ⟨h1.2.1 (by decide), h1.2.2.1 (by decide),
    h2.1 (by decide), h2.2.2.2 (by decide)⟩

/-- C9: a COMMA node evaluates its left child, then its right child on the
state the left child produced (so both children's side effects occur in
that order), discards the left child's boolean and returns exactly the
right child's boolean, whatever the left child returned. -/
theorem C9_comma_seq (fuel : Nat) (env : Env) (l r : Expression) (i : Int)
    (sd : String) (s s1 s2 : eval_state) (bl br : Bool)
    (hl : expr_eval fuel env l l s = some (bl, s1))
    (hr : expr_eval fuel env r r s1 = some (br, s2)) :
    expr_eval (fuel + 1) env (Expression.mk ExprKind.ecomma l r i sd)
      (Expression.mk ExprKind.ecomma l r i sd) s = some (br, s2) := by
  simp [expr_eval, hl, hr]

/-- Witness for C9 at a concrete input: COMMA of -true and -false returns
false, the right side's result. -/
theorem C9_comma_seq_witness :
    expr_eval 2 env0 (Expression.mk ExprKind.ecomma true_leaf false_leaf 0 "")
      (Expression.mk ExprKind.ecomma true_leaf false_leaf 0 "") s0 =
      some (false, s0) :=
  C9_comma_seq 1 env0 true_leaf false_leaf 0 "" s0 s0 s0 true false
    (by decide) (by decide)

/-- C4: the delete leaf always returns true; it invokes unlinkat with the
directory-aware removal flag exactly when the entry's type is directory;
on successful removal only the syscall is recorded and the directive is
left unchanged; on failed removal it reports the entry's path and OS
error code to the diagnostic collaborator and sets the directive to
BFTW_STOP, while still returning true. -/
theorem C4_eval_delete_contract (env : Env) (s : eval_state) (flag : Int)
    (hf : flag = if env.ftw.typeflag = BFTW_DIR then AT_REMOVEDIR else 0) :
    (eval_delete env s).1 = true ∧
    (env.os.unlinkat flag = true →
      eval_delete env s = (true,
        { s with tr :=
            { s.tr with unlinkat_calls := flag :: s.tr.unlinkat_calls } })) ∧
    (env.os.unlinkat flag = false →
      eval_delete env s = (true,
        { s with
          action := bftw_action.BFTW_STOP,
          tr := { s.tr with
            unlinkat_calls := flag :: s.tr.unlinkat_calls,
            errs := Diag.print_error env.ftw.path env.os.unlinkat_errno ::
              s.tr.errs,
            action_writes := bftw_action.BFTW_STOP ::
              s.tr.action_writes } })) := by
  subst hf
  refine ⟨?_, fun h => ?_, fun h => ?_⟩
  · cases h : env.os.unlinkat
      (if env.ftw.typeflag = BFTW_DIR then AT_REMOVEDIR else 0) <;>
      simp [eval_delete, h]
  · simp [eval_delete, h]
  · simp [eval_delete, h]

/-- Witness for C4 at concrete inputs: a failing unlinkat escalates the
directive to BFTW_STOP while a successful one leaves it unchanged, and
the result is true in both cases. -/
theorem C4_eval_delete_contract_witness :
    (eval_delete env_nounlink s0).2.action = bftw_action.BFTW_STOP ∧
    (eval_delete env0 s0).2.action = s0.action ∧
    (eval_delete env_nounlink s0).1 = true := by
  have h1 := (C4_eval_delete_contract env_nounlink s0 0 (by decide)).2.2
    (by decide)
  have h2 := (C4_eval_delete_contract env0 s0 0 (by decide)).2.1 (by decide)
  have h3 := (C4_eval_delete_contract env_nounlink s0 0 (by decide)).1
  rw [h1, h2]
  exact ⟨rfl, rfl, h3⟩

/-- C5 (amended): for soft limits representable in the C int (below 2^31,
which is every value the conversion to the int variable ret preserves),
the inferred budget is 4093 when the limit query fails or reports
unlimited, L - 3 when 3 < L, and L when L ≤ 3. -/
theorem C5_infer_nopenfd_budget (L : Nat) (hL : L < 2 ^ 31) :
    infer_nopenfd none = 4093 ∧
    infer_nopenfd (some RLIM_INFINITY) = 4093 ∧
    infer_nopenfd (some L) = if 3 < L then (L : Int) - 3 else (L : Int) := by
  have e1 : (2 : Nat) ^ 31 = 2147483648 := by norm_num
  rw [e1] at hL
  have e2 : RLIM_INFINITY = 18446744073709551615 := by norm_num [RLIM_INFINITY]
  have hne : L ≠ RLIM_INFINITY := by omega
  have hwrap : int32_wrap L = (L : Int) := by
    have e3 : (2 : Int) ^ 31 = 2147483648 := by norm_num
    have e4 : (2 : Int) ^ 32 = 4294967296 := by norm_num
    unfold int32_wrap
    rw [e3, e4]
    omega
  refine ⟨by decide, by decide, ?_⟩
  simp only [infer_nopenfd, hne, ne_eq, not_false_eq_true, if_true, hwrap]
  split_ifs <;> omega

/-- Witness for C5 at the concrete soft limit 256: the inferred budget is
253 (and 4093 when the query fails). -/
theorem C5_infer_nopenfd_budget_witness :
    infer_nopenfd none = 4093 ∧ infer_nopenfd (some 256) = 253 := by
  have h := C5_infer_nopenfd_budget 256 (by norm_num)
  refine ⟨h.1, ?_⟩
  rw [h.2.2]
  norm_num

/-- C5 counterexample: at soft limit 2^31 the assignment of the rlim_t
value to the C int ret wraps, so the inferred budget is -2^31: it is
negative and differs from the claimed L - 3. -/
theorem C5_counterexample :
    infer_nopenfd (some (2 ^ 31)) = -2147483648 ∧
    (2 : Int) ^ 31 - 3 ≠ -2147483648 ∧
    infer_nopenfd (some (2 ^ 31)) < 0 := by
  refine ⟨by decide, by decide, by decide⟩

/-- C6 (amended): the status cache is consulted before any syscall: a
status already present (supplied by the event or by an earlier successful
fill) makes the fill a no-op with no syscall; an absent status triggers
exactly one fstatat, whose success populates the cache (so every later
fill in the visit is a no-op) and whose failure reports a diagnostic and
leaves the status absent — after which a later fill request in the same
visit performs the syscall again rather than observing a recorded
failure. -/
theorem C6_fill_statbuf_cache (env : Env) (s : eval_state) :
    (∀ sb, s.statbuf = some sb → fill_statbuf env s = s) ∧
    (∀ sb, s.statbuf = none → env.os.fstatat = some sb →
      fill_statbuf env s =
        { s with statbuf := some sb,
                 tr := { s.tr with
                   fstatat_calls := s.tr.fstatat_calls + 1 } } ∧
      fill_statbuf env (fill_statbuf env s) = fill_statbuf env s) ∧
    (s.statbuf = none → env.os.fstatat = none →
      (fill_statbuf env s).statbuf = none ∧
      fill_statbuf env s =
        { s with tr :=
            { s.tr with
              fstatat_calls := s.tr.fstatat_calls + 1,
              errs := Diag.perror "fstatat()" :: s.tr.errs } } ∧
      (fill_statbuf env (fill_statbuf env s)).tr.fstatat_calls =
        s.tr.fstatat_calls + 2) := by
  refine ⟨fun sb hsb => ?_, fun sb hn hf => ⟨?_, ?_⟩, fun hn hf => ⟨?_, ?_, ?_⟩⟩
  · simp [fill_statbuf, hsb]
  · simp [fill_statbuf, hn, hf]
  · simp [fill_statbuf, hn, hf]
  · simp [fill_statbuf, hn, hf]
  · simp [fill_statbuf, hn, hf]
  · simp [fill_statbuf, hn, hf]

/-- Witness for C6 at concrete inputs: a successful fill populates the
cache with one syscall, and after a failed fill a second fill performs a
second syscall. -/
theorem C6_fill_statbuf_cache_witness :
    fill_statbuf env0 s0 =
      { s0 with statbuf := some stat0,
                tr := { s0.tr with
                  fstatat_calls := s0.tr.fstatat_calls + 1 } } ∧
    (fill_statbuf env_colors_nostat (fill_statbuf env_colors_nostat s0)).tr.fstatat_calls =
      s0.tr.fstatat_calls + 2 :=
  ⟨((C6_fill_statbuf_cache env0 s0).2.1 stat0 rfl rfl).1,
   ((C6_fill_statbuf_cache env_colors_nostat s0).2.2 rfl rfl).2.2⟩

/-- C6 counterexample: in one visit with colorized output and a failing
fstatat, an expression sequencing two -print actions performs two fstatat
syscalls — the failed fill is retried by the second print, refuting the
claim that the fill is not retried within the visit. -/
theorem C6_counterexample :
    (expr_eval 3 env_colors_nostat comma_print_print comma_print_print
      s0).map (fun p => p.2.tr.fstatat_calls) = some 2 := by
  decide

/-- C7: on a visit event carrying the error sentinel type, the callback
reports the event's path and carried OS error to the diagnostic
collaborator and returns BFTW_SKIP_SUBTREE immediately; the result does
not depend on the expression tree (the command line cl is universally
quantified and absent from the right-hand side), so no evaluation context
is built and no part of the tree is evaluated. -/
theorem C7_error_sentinel (fuel : Nat) (os : OS) (ftwbuf : BFTW)
    (cl : cmdline) (h : ftwbuf.typeflag = BFTW_ERROR) :
    cmdline_callback fuel os ftwbuf cl =
      some (bftw_action.BFTW_SKIP_SUBTREE,
        { trace.empty with
          errs := [Diag.print_error ftwbuf.path ftwbuf.error] }) := by
  simp [cmdline_callback, h]

/-- Witness for C7 at a concrete input: an error-sentinel event with OS
error 13 yields skip-subtree and the single diagnostic. -/
theorem C7_error_sentinel_witness :
    cmdline_callback 1 os_ok ftw_err cl_prune =
      some (bftw_action.BFTW_SKIP_SUBTREE,
        { trace.empty with
          errs := [Diag.print_error ftw_err.path ftw_err.error] }) :=
  C7_error_sentinel 1 os_ok ftw_err cl_prune rfl

/-- C2: the expected visit phase is post-order exactly when the
depth-first flag is set, the entry is a directory and its depth is
strictly below maxdepth (pre-order otherwise, there being only two
phases); when the actual phase differs from the expected one the callback
returns the preset directive with an untouched trace, independently of
the expression tree; when the phase matches and the depth bounds hold,
the callback is exactly the evaluation of the expression tree from the
preset state. -/
theorem C2_expected_phase (fuel : Nat) (os : OS) (ftwbuf : BFTW)
    (cl : cmdline) :
    (expected_visit ftwbuf cl = bftw_visit.BFTW_POST ↔
      ((cl.flags &&& BFTW_DEPTH) ≠ 0 ∧ ftwbuf.typeflag = BFTW_DIR ∧
        ftwbuf.depth < cl.maxdepth)) ∧
    (ftwbuf.typeflag ≠ BFTW_ERROR →
      ftwbuf.visit ≠ expected_visit ftwbuf cl →
      cmdline_callback fuel os ftwbuf cl =
        some (preset_action ftwbuf cl, trace.empty)) ∧
    (ftwbuf.typeflag ≠ BFTW_ERROR →
      ftwbuf.visit = expected_visit ftwbuf cl →
      cl.mindepth ≤ ftwbuf.depth → ftwbuf.depth ≤ cl.maxdepth →
      cmdline_callback fuel os ftwbuf cl =
        (expr_eval fuel ⟨ftwbuf, cl.colors, os⟩ cl.expr cl.expr
          (preset_state ftwbuf cl)).map (fun p => (p.2.action, p.2.tr))) := by
  refine ⟨?_, fun ht hv => ?_, fun ht hv h1 h2 => ?_⟩
  · unfold expected_visit
    split
    · simp [*]
    · simp [*]
  · simp [cmdline_callback, ht, hv]
  · simp only [cmdline_callback, if_neg ht]
    rw [if_pos ⟨hv, h1, h2⟩]
    cases hres : expr_eval fuel ⟨ftwbuf, cl.colors, os⟩ cl.expr cl.expr
      (preset_state ftwbuf cl) with
    | none => simp
    | some p => simp

/-- Witness for C2 at concrete inputs: a post-order event whose expected
phase is pre-order is not evaluated (preset returned, empty trace), while
the matching pre-order event is evaluated against the tree. -/
theorem C2_expected_phase_witness :
    cmdline_callback 1 os_ok ftw_post cl_prune =
      some (preset_action ftw_post cl_prune, trace.empty) ∧
    cmdline_callback 1 os_ok ftw0 cl_prune =
      (expr_eval 1 ⟨ftw0, cl_prune.colors, os_ok⟩ cl_prune.expr cl_prune.expr
        (preset_state ftw0 cl_prune)).map (fun p => (p.2.action, p.2.tr)) :=
  ⟨(C2_expected_phase 1 os_ok ftw_post cl_prune).2.1 (by decide) (by decide),
   (C2_expected_phase 1 os_ok ftw0 cl_prune).2.2 (by decide) (by decide)
     (by decide) (by decide)⟩

/-- C3: for non-error events the preset directive is skip-subtree exactly
when depth is at least maxdepth; outside [mindepth, maxdepth] the tree is
never evaluated and the callback returns the preset directive with an
untouched trace; at depth equal to maxdepth the entry is both preset to
skip-subtree and still evaluated when its phase matches; and below both
mindepth and maxdepth the callback returns continue. -/
theorem C3_depth_policy (fuel : Nat) (os : OS) (ftwbuf : BFTW)
    (cl : cmdline) :
    (preset_action ftwbuf cl = bftw_action.BFTW_SKIP_SUBTREE ↔
      cl.maxdepth ≤ ftwbuf.depth) ∧
    (ftwbuf.typeflag ≠ BFTW_ERROR →
      ¬(cl.mindepth ≤ ftwbuf.depth ∧ ftwbuf.depth ≤ cl.maxdepth) →
      cmdline_callback fuel os ftwbuf cl =
        some (preset_action ftwbuf cl, trace.empty)) ∧
    (ftwbuf.typeflag ≠ BFTW_ERROR → ftwbuf.depth = cl.maxdepth →
      ftwbuf.visit = expected_visit ftwbuf cl → cl.mindepth ≤ ftwbuf.depth →
      (preset_state ftwbuf cl).action = bftw_action.BFTW_SKIP_SUBTREE ∧
      cmdline_callback fuel os ftwbuf cl =
        (expr_eval fuel ⟨ftwbuf, cl.colors, os⟩ cl.expr cl.expr
          (preset_state ftwbuf cl)).map (fun p => (p.2.action, p.2.tr))) ∧
    (ftwbuf.typeflag ≠ BFTW_ERROR → ftwbuf.depth < cl.mindepth →
      ftwbuf.depth < cl.maxdepth →
      cmdline_callback fuel os ftwbuf cl =
        some (bftw_action.BFTW_CONTINUE, trace.empty)) := by
  refine ⟨?_, fun ht hb => ?_, fun ht hd hv h1 => ⟨?_, ?_⟩, fun ht hlo hhi => ?_⟩
  · unfold preset_action
    split
    · simp [*]
    · simp [*]
  · have hgate : ¬(ftwbuf.visit = expected_visit ftwbuf cl ∧
        cl.mindepth ≤ ftwbuf.depth ∧ ftwbuf.depth ≤ cl.maxdepth) := by
      intro hg
      exact hb ⟨hg.2.1, hg.2.2⟩
    simp [cmdline_callback, ht, hgate]
  · simp [preset_state, preset_action, hd]
  · simp only [cmdline_callback, if_neg ht]
    rw [if_pos ⟨hv, h1, le_of_eq hd⟩]
    cases hres : expr_eval fuel ⟨ftwbuf, cl.colors, os⟩ cl.expr cl.expr
      (preset_state ftwbuf cl) with
    | none => simp
    | some p => simp
  · have hgate : ¬(ftwbuf.visit = expected_visit ftwbuf cl ∧
        cl.mindepth ≤ ftwbuf.depth ∧ ftwbuf.depth ≤ cl.maxdepth) := by
      intro hg
      omega
    have hpre : preset_action ftwbuf cl = bftw_action.BFTW_CONTINUE := by
      unfold preset_action
      rw [if_neg (by omega)]
    simp [cmdline_callback, ht, hgate, hpre]

/-- Witness for C3 at concrete inputs: depth 0 below mindepth 2 returns
continue without evaluation; depth 5 equal to maxdepth 5 is preset to
skip-subtree yet still evaluated; and depth 0 below mindepth 2 also
matches the not-evaluated preset form. -/
theorem C3_depth_policy_witness :
    cmdline_callback 1 os_ok ftw0 cl_mindepth2 =
      some (bftw_action.BFTW_CONTINUE, trace.empty) ∧
    (preset_state ftw_depth5 cl_prune).action =
      bftw_action.BFTW_SKIP_SUBTREE ∧
    cmdline_callback 1 os_ok ftw_depth5 cl_prune =
      (expr_eval 1 ⟨ftw_depth5, cl_prune.colors, os_ok⟩ cl_prune.expr
        cl_prune.expr (preset_state ftw_depth5 cl_prune)).map
        (fun p => (p.2.action, p.2.tr)) ∧
    cmdline_callback 1 os_ok ftw0 cl_mindepth2 =
      some (preset_action ftw0 cl_mindepth2, trace.empty) := by
  have h1 := (C3_depth_policy 1 os_ok ftw0 cl_mindepth2).2.2.2 (by decide)
    (by decide) (by decide)
  have h2 := (C3_depth_policy 1 os_ok ftw_depth5 cl_prune).2.2.1 (by decide)
    (by decide) (by decide) (by decide)
  have h3 := (C3_depth_policy 1 os_ok ftw0 cl_mindepth2).2.1 (by decide)
    (by decide)
  exact ⟨h1, h2.1, h2.2, h3⟩

/-- The writes_ok relation is reflexive: a walk with no action write. -/
theorem writes_ok_refl (s : eval_state) : writes_ok s s :=
  ⟨[], by simp, by simp, by simp⟩

/-- A step that changes neither the action nor the write log preserves
writes_ok from the start state. -/
theorem writes_ok_of_same (s s2 : eval_state) (ha : s2.action = s.action)
    (hw : s2.tr.action_writes = s.tr.action_writes) : writes_ok s s2 :=
  ⟨[], by simp [hw], by simp, by simp [ha]⟩

/-- A step that writes exactly one skip-subtree into the action satisfies
writes_ok. -/
theorem writes_ok_skip (s s2 : eval_state)
    (ha : s2.action = bftw_action.BFTW_SKIP_SUBTREE)
    (hw : s2.tr.action_writes =
      bftw_action.BFTW_SKIP_SUBTREE :: s.tr.action_writes) : writes_ok s s2 :=
  ⟨[bftw_action.BFTW_SKIP_SUBTREE], by simp [hw], by simp, by simp [ha]⟩

/-- The writes_ok relation composes: last writer wins across two
consecutive walks whose writes are all skip-subtree. -/
theorem writes_ok_trans {s1 s2 s3 : eval_state} (h12 : writes_ok s1 s2)
    (h23 : writes_ok s2 s3) : writes_ok s1 s3 := by
  obtain ⟨w1, ha1, hb1, hc1⟩ := h12
  obtain ⟨w2, ha2, hb2, hc2⟩ := h23
  refine ⟨w2 ++ w1, by rw [ha2, ha1, List.append_assoc], ?_, ?_⟩
  · intro x hx
    rcases List.mem_append.1 hx with hm | hm
    · exact hb2 x hm
    · exact hb1 x hm
  · by_cases h0 : w2 = []
    · subst h0
      rw [if_pos rfl] at hc2
      simp only [List.nil_append]
      rw [hc2]
      exact hc1
    · rw [if_neg h0] at hc2
      have hne : w2 ++ w1 ≠ [] := fun hz => h0 (List.append_eq_nil.1 hz).1
      rw [if_neg hne]
      exact hc2

/-- The stat-buffer fill never touches the directive or the write log. -/
theorem fill_statbuf_writes (env : Env) (s : eval_state) :
    (fill_statbuf env s).action = s.action ∧
    (fill_statbuf env s).tr.action_writes = s.tr.action_writes := by
  unfold fill_statbuf
  cases s.statbuf
  · cases env.os.fstatat <;> exact ⟨rfl, rfl⟩
  · exact ⟨rfl, rfl⟩

/-- A delete/quit-free node has a delete/quit-free left child. -/
theorem no_delete_quit_lhs {k : ExprKind} {l r : Expression} {i : Int}
    {sd : String} (h : no_delete_quit (Expression.mk k l r i sd) = true) :
    no_delete_quit l = true := by
  simp [no_delete_quit] at h
  tauto

/-- A delete/quit-free node has a delete/quit-free right child. -/
theorem no_delete_quit_rhs {k : ExprKind} {l r : Expression} {i : Int}
    {sd : String} (h : no_delete_quit (Expression.mk k l r i sd) = true) :
    no_delete_quit r = true := by
  simp [no_delete_quit] at h
  tauto

/-- Invariant of the tree walk: when neither the callee node nor the
argument node contains a -delete or -quit leaf, every write made to the
action field during evaluation is skip-subtree, and the final action is
the initial one unless a write occurred, in which case it is
skip-subtree. -/
theorem expr_eval_writes_ok (fuel : Nat) :
    ∀ (env : Env) (callee arg : Expression) (s : eval_state) (b : Bool)
      (s2 : eval_state),
      no_delete_quit callee = true → no_delete_quit arg = true →
      expr_eval fuel env callee arg s = some (b, s2) → writes_ok s s2 := by
  induction fuel with
  | zero =>
    intro env callee arg s b s2 _ _ h
    simp [expr_eval] at h
  | succ fuel ih =>
    intro env callee arg s b s2 hc ha h
    cases callee with
    | null => simp [expr_eval] at h
    | mk k clhs crhs cid csd =>
      cases k with
      | etrue =>
        simp only [expr_eval, eval_true, Option.some.injEq,
          Prod.mk.injEq] at h
        obtain ⟨-, hs⟩ := h
        subst hs
        exact writes_ok_refl s
      | efalse =>
        simp only [expr_eval, eval_false, Option.some.injEq,
          Prod.mk.injEq] at h
        obtain ⟨-, hs⟩ := h
        subst hs
        exact writes_ok_refl s
      | eaccess =>
        cases arg with
        | null => simp [expr_eval] at h
        | mk ak alhs arhs aid asd =>
          simp only [expr_eval, eval_access, Option.some.injEq,
            Prod.mk.injEq] at h
          obtain ⟨-, hs⟩ := h
          subst hs
          exact writes_ok_refl s
      | edelete => simp [no_delete_quit] at hc
      | eprune =>
        simp only [expr_eval, eval_prune, Option.some.injEq,
          Prod.mk.injEq] at h
        obtain ⟨-, hs⟩ := h
        subst hs
        exact writes_ok_skip s _ rfl rfl
      | ehidden =>
        simp only [expr_eval, eval_hidden, Option.some.injEq,
          Prod.mk.injEq] at h
        obtain ⟨-, hs⟩ := h
        subst hs
        exact writes_ok_refl s
      | enohidden =>
        simp only [expr_eval, eval_nohidden] at h
        split at h
        · simp only [eval_prune, eval_hidden, Option.some.injEq,
            Prod.mk.injEq] at h
          obtain ⟨-, hs⟩ := h
          subst hs
          exact writes_ok_skip s _ rfl rfl
        · simp only [Option.some.injEq, Prod.mk.injEq] at h
          obtain ⟨-, hs⟩ := h
          subst hs
          exact writes_ok_refl s
      | ename =>
        cases arg with
        | null => simp [expr_eval] at h
        | mk ak alhs arhs aid asd =>
          simp only [expr_eval, eval_name, Option.some.injEq,
            Prod.mk.injEq] at h
          obtain ⟨-, hs⟩ := h
          subst hs
          exact writes_ok_refl s
      | epath =>
        cases arg with
        | null => simp [expr_eval] at h
        | mk ak alhs arhs aid asd =>
          simp only [expr_eval, eval_path, Option.some.injEq,
            Prod.mk.injEq] at h
          obtain ⟨-, hs⟩ := h
          subst hs
          exact writes_ok_refl s
      | eprint =>
        simp only [expr_eval, eval_print, Option.some.injEq,
          Prod.mk.injEq] at h
        obtain ⟨-, hs⟩ := h
        subst hs
        refine writes_ok_of_same s _ ?_ ?_
        · cases hco : env.colors <;>
            simp [hco, (fill_statbuf_writes env s).1]
        · cases hco : env.colors <;>
            simp [hco, (fill_statbuf_writes env s).2]
      | eprint0 =>
        simp only [expr_eval, eval_print0, Option.some.injEq,
          Prod.mk.injEq] at h
        obtain ⟨-, hs⟩ := h
        subst hs
        exact writes_ok_of_same s _ rfl rfl
      | equit => simp [no_delete_quit] at hc
      | etype =>
        cases arg with
        | null => simp [expr_eval] at h
        | mk ak alhs arhs aid asd =>
          simp only [expr_eval, eval_type, Option.some.injEq,
            Prod.mk.injEq] at h
          obtain ⟨-, hs⟩ := h
          subst hs
          exact writes_ok_refl s
      | enot =>
        cases arg with
        | null => simp [expr_eval] at h
        | mk ak alhs arhs aid asd =>
          simp only [expr_eval] at h
          cases hres : expr_eval fuel env arhs
              (Expression.mk ak alhs arhs aid asd) s with
          | none => rw [hres] at h; simp at h
          | some p =>
            obtain ⟨b1, s1⟩ := p
            rw [hres] at h
            simp only [Option.some.injEq, Prod.mk.injEq] at h
            obtain ⟨-, hs⟩ := h
            subst hs
            exact ih env arhs (Expression.mk ak alhs arhs aid asd) s b1 s1
              (no_delete_quit_rhs ha) ha hres
      | eand =>
        cases arg with
        | null => simp [expr_eval] at h
        | mk ak alhs arhs aid asd =>
          simp only [expr_eval] at h
          cases hres : expr_eval fuel env alhs alhs s with
          | none => rw [hres] at h; simp at h
          | some p =>
            obtain ⟨b1, s1⟩ := p
            rw [hres] at h
            have hl := ih env alhs alhs s b1 s1 (no_delete_quit_lhs ha)
              (no_delete_quit_lhs ha) hres
            cases b1 with
            | false =>
              simp only [Bool.false_eq_true, if_false, Option.some.injEq,
                Prod.mk.injEq] at h
              obtain ⟨-, hs⟩ := h
              subst hs
              exact hl
            | true =>
              simp only [if_true] at h
              exact writes_ok_trans hl (ih env arhs arhs s1 b s2
                (no_delete_quit_rhs ha) (no_delete_quit_rhs ha) h)
      | eor =>
        cases arg with
        | null => simp [expr_eval] at h
        | mk ak alhs arhs aid asd =>
          simp only [expr_eval] at h
          cases hres : expr_eval fuel env alhs alhs s with
          | none => rw [hres] at h; simp at h
          | some p =>
            obtain ⟨b1, s1⟩ := p
            rw [hres] at h
            have hl := ih env alhs alhs s b1 s1 (no_delete_quit_lhs ha)
              (no_delete_quit_lhs ha) hres
            cases b1 with
            | true =>
              simp only [if_true, Option.some.injEq, Prod.mk.injEq] at h
              obtain ⟨-, hs⟩ := h
              subst hs
              exact hl
            | false =>
              simp only [Bool.false_eq_true, if_false] at h
              exact writes_ok_trans hl (ih env arhs arhs s1 b s2
                (no_delete_quit_rhs ha) (no_delete_quit_rhs ha) h)
      | ecomma =>
        cases arg with
        | null => simp [expr_eval] at h
        | mk ak alhs arhs aid asd =>
          simp only [expr_eval] at h
          cases hres : expr_eval fuel env alhs alhs s with
          | none => rw [hres] at h; simp at h
          | some p =>
            obtain ⟨b1, s1⟩ := p
            rw [hres] at h
            have hl := ih env alhs alhs s b1 s1 (no_delete_quit_lhs ha)
              (no_delete_quit_lhs ha) hres
            exact writes_ok_trans hl (ih env arhs arhs s1 b s2
              (no_delete_quit_rhs ha) (no_delete_quit_rhs ha) h)

/-- C10: on a non-error visit, when the expression tree contains no
-delete and no -quit leaf, the directive the callback returns is never
BFTW_STOP — it is continue or skip-subtree, it is skip-subtree exactly
when depth is at least maxdepth or some directive write occurred during
evaluation, and every such write (necessarily from -prune or -nohidden,
the only remaining writers) is itself skip-subtree. -/
theorem C10_no_stop (fuel : Nat) (os : OS) (ftwbuf : BFTW) (cl : cmdline)
    (a : bftw_action) (tr : trace)
    (hnd : no_delete_quit cl.expr = true)
    (ht : ftwbuf.typeflag ≠ BFTW_ERROR)
    (h : cmdline_callback fuel os ftwbuf cl = some (a, tr)) :
    a ≠ bftw_action.BFTW_STOP ∧
    (a = bftw_action.BFTW_CONTINUE ∨ a = bftw_action.BFTW_SKIP_SUBTREE) ∧
    (a = bftw_action.BFTW_SKIP_SUBTREE ↔
      (cl.maxdepth ≤ ftwbuf.depth ∨ tr.action_writes ≠ [])) ∧
    (∀ x ∈ tr.action_writes, x = bftw_action.BFTW_SKIP_SUBTREE) := by
  simp only [cmdline_callback] at h
  rw [if_neg ht] at h
  by_cases hgate : ftwbuf.visit = expected_visit ftwbuf cl ∧
      cl.mindepth ≤ ftwbuf.depth ∧ ftwbuf.depth ≤ cl.maxdepth
  · rw [if_pos hgate] at h
    cases hres : expr_eval fuel ⟨ftwbuf, cl.colors, os⟩ cl.expr cl.expr
        (preset_state ftwbuf cl) with
    | none => rw [hres] at h; simp at h
    | some p =>
      obtain ⟨b2, s2⟩ := p
      rw [hres] at h
      simp only [Option.some.injEq, Prod.mk.injEq] at h
      obtain ⟨hsa, hstr⟩ := h
      subst hsa
      subst hstr
      obtain ⟨w, hw, hball, hact⟩ := expr_eval_writes_ok fuel
        ⟨ftwbuf, cl.colors, os⟩ cl.expr cl.expr (preset_state ftwbuf cl)
        b2 s2 hnd hnd hres
      simp only [preset_state, trace.empty, List.append_nil] at hw hact
      by_cases h0 : w = []
      · subst h0
        rw [if_pos rfl] at hact
        unfold preset_action at hact
        by_cases hd : cl.maxdepth ≤ ftwbuf.depth
        · rw [if_pos hd] at hact
          refine ⟨by rw [hact]; decide, Or.inr hact,
            ⟨fun _ => Or.inl hd, fun _ => hact⟩, ?_⟩
          intro x hx
          rw [hw] at hx
          simp at hx
        · rw [if_neg hd] at hact
          refine ⟨by rw [hact]; decide, Or.inl hact, ⟨?_, ?_⟩, ?_⟩
          · intro hsk
            rw [hact] at hsk
            exact absurd hsk (by decide)
          · intro hor
            rcases hor with hmd | hne
            · exact absurd hmd hd
            · rw [hw] at hne
              simp at hne
          · intro x hx
            rw [hw] at hx
            simp at hx
      · rw [if_neg h0] at hact
        refine ⟨by rw [hact]; decide, Or.inr hact,
          ⟨fun _ => Or.inr (by rw [hw]; exact h0), fun _ => hact⟩,
          fun x hx => hball x (by rwa [hw] at hx)⟩
  · rw [if_neg hgate] at h
    simp only [Option.some.injEq, Prod.mk.injEq] at h
    obtain ⟨hpa, hptr⟩ := h
    subst hpa
    subst hptr
    unfold preset_action
    by_cases hd : cl.maxdepth ≤ ftwbuf.depth
    · rw [if_pos hd]
      refine ⟨by decide, Or.inr rfl, ⟨fun _ => Or.inl hd, fun _ => rfl⟩, ?_⟩
      intro x hx
      simp [trace.empty] at hx
    · rw [if_neg hd]
      refine ⟨by decide, Or.inl rfl, ⟨?_, ?_⟩, ?_⟩
      · intro hsk
        exact absurd hsk (by decide)
      · intro hor
        rcases hor with hmd | hne
        · exact absurd hmd hd
        · simp [trace.empty] at hne
      · intro x hx
        simp [trace.empty] at hx

/-- Witness for C10 at a concrete input: a delete/quit-free tree (-prune)
on a pre-order event at depth 0 returns skip-subtree, not stop, with one
skip-subtree write in the log. -/
theorem C10_no_stop_witness :
    bftw_action.BFTW_SKIP_SUBTREE ≠ bftw_action.BFTW_STOP ∧
    (bftw_action.BFTW_SKIP_SUBTREE = bftw_action.BFTW_SKIP_SUBTREE ↔
      (cl_prune.maxdepth ≤ ftw0.depth ∨
        (⟨[], [], 0, [], [bftw_action.BFTW_SKIP_SUBTREE]⟩ : trace).action_writes ≠ [])) := by
  have h := C10_no_stop 1 os_ok ftw0 cl_prune bftw_action.BFTW_SKIP_SUBTREE
    ⟨[], [], 0, [], [bftw_action.BFTW_SKIP_SUBTREE]⟩ (by decide) (by decide)
    (by decide)
  exact ⟨h.1, h.2.2.1⟩

end Bfs
